import Mathlib

/-!
Verification of the result-normalization core of the test-and-typecheck
MCP server: the tree flattener (`extractTestCases`), the test report
formatter (`formatTestResults`), the diagnostic collector (`runTypeCheck`)
and the diagnostic formatter (`formatTypeErrors`), together with the
tool dispatcher.  Machine integers do not occur; all counts are `Nat`.
External collaborators (the TypeScript compiler services and the file
system) are modelled as explicit environments of abstract functions.
-/

set_option maxHeartbeats 1000000

namespace TTMcp

/-- Outcome error entry attached to a failed test: `message?` / `diff?`. -/
structure TestRunError where
  message : Option String
  diff : Option String
  deriving DecidableEq, Repr

/-- Outcome payload of an executed test: a `state` string (`passed`,
`failed`, `skipped`, or anything else) and an optional error list. -/
structure RunResult where
  state : String
  errors : Option (List TestRunError)
  deriving DecidableEq, Repr

/-- A path-labeled test entity produced by the flattener: `name`,
hierarchy `path`, and the (possibly `undefined`) outcome payload. -/
structure TestCaseResult where
  name : String
  path : List String
  result : Option RunResult
  deriving DecidableEq, Repr

/-- The test-result tree consumed by the flattener, mirroring the
`TestCase | TestSuite | TestModule` union: a `test` leaf carries its
zero-argument outcome query (which may throw, hence `Except`, and may
return `undefined`, hence `Option`); `suite` and `mod` carry a possibly
absent children collection; `other` stands for an unrecognized `type`
discriminator. -/
inductive VEntity where
  | test (name : String) (result : Except String (Option RunResult))
  | suite (name : String) (children : Option (List VEntity))
  | mod (moduleId : String) (children : Option (List VEntity))
  | other
  deriving Repr

/-- Size bound used for termination of the traversal: a `children ?? []`
collection is no larger than the optional collection itself. -/
theorem sizeOf_getD_le (ch : Option (List VEntity)) : sizeOf (ch.getD []) ≤ sizeOf ch := by
  cases ch with
  | none => simp [Option.getD]
  | some l => simp [Option.getD]

/-- Every list of entities has positive size. -/
theorem one_le_sizeOf_entList (cs : List VEntity) : 1 ≤ sizeOf cs := by
  cases cs with
  | nil => simp
  | cons c cs => simp; omega

mutual

/-- Embedding of `extractTestCases` from `src/extractTestCases.ts`:
absent entity gives `[]`; a `test` leaf evaluates its outcome (a thrown
failure propagates) and emits one entity with `path = parentPath ++ [name]`;
a `suite`/`module` appends its display identifier to the path and
flat-maps over `children ?? []`; any other kind gives `[]`. -/
def extractTestCases : Option VEntity → List String → Except String (List TestCaseResult)
  | none, _ => Except.ok []
  | some (VEntity.test name result), parentPath =>
    match result with
    | Except.error e => Except.error e
    | Except.ok r =>
      Except.ok [{ name := name, path := parentPath ++ [name], result := r }]
  | some (VEntity.suite name children), parentPath =>
    extractFromChildren (children.getD []) (parentPath ++ [name])
  | some (VEntity.mod moduleId children), parentPath =>
    extractFromChildren (children.getD []) (parentPath ++ [moduleId])
  | some VEntity.other, _ => Except.ok []
termination_by e _ => sizeOf e
decreasing_by
  all_goals simp_wf
  all_goals first
    | omega
    | (have h := one_le_sizeOf_entList cs; omega)
    | exact Nat.lt_of_le_of_lt (sizeOf_getD_le _) (by omega)

/-- The `flatMap` over a container's children in `extractTestCases`:
recursion over each child in iteration order, concatenating results; a
thrown failure from any child aborts the whole traversal. -/
def extractFromChildren : List VEntity → List String → Except String (List TestCaseResult)
  | [], _ => Except.ok []
  | c :: cs, currentPath => do
    let r ← extractTestCases (some c) currentPath
    let rs ← extractFromChildren cs currentPath
    pure (r ++ rs)
termination_by cs _ => sizeOf cs
decreasing_by
  all_goals simp_wf
  all_goals first
    | omega
    | (have h := one_le_sizeOf_entList cs; omega)
    | exact Nat.lt_of_le_of_lt (sizeOf_getD_le _) (by omega)

end

mutual

/-- True when no reachable `test` leaf of the tree has a throwing
outcome query. -/
def noThrow : VEntity → Bool
  | VEntity.test nm result => result.isOk
  | VEntity.suite nm children => noThrowList (children.getD [])
  | VEntity.mod nm children => noThrowList (children.getD [])
  | VEntity.other => true
termination_by e => sizeOf e
decreasing_by
  all_goals simp_wf
  all_goals first
    | omega
    | (have h := one_le_sizeOf_entList cs; omega)
    | exact Nat.lt_of_le_of_lt (sizeOf_getD_le _) (by omega)

/-- `noThrow` over a children list. -/
def noThrowList : List VEntity → Bool
  | [] => true
  | c :: cs => noThrow c && noThrowList cs
termination_by cs => sizeOf cs
decreasing_by
  all_goals simp_wf
  all_goals first
    | omega
    | (have h := one_le_sizeOf_entList cs; omega)
    | exact Nat.lt_of_le_of_lt (sizeOf_getD_le _) (by omega)

end

mutual

/-- The first (depth-first, left-to-right) thrown outcome-query failure
reachable in the tree, if any. -/
def firstThrow : VEntity → Option String
  | VEntity.test nm result =>
    match result with
    | Except.error e => some e
    | Except.ok _ => none
  | VEntity.suite nm children => firstThrowList (children.getD [])
  | VEntity.mod nm children => firstThrowList (children.getD [])
  | VEntity.other => none
termination_by e => sizeOf e
decreasing_by
  all_goals simp_wf
  all_goals first
    | omega
    | (have h := one_le_sizeOf_entList cs; omega)
    | exact Nat.lt_of_le_of_lt (sizeOf_getD_le _) (by omega)

/-- `firstThrow` over a children list. -/
def firstThrowList : List VEntity → Option String
  | [] => none
  | c :: cs =>
    match firstThrow c with
    | some e => some e
    | none => firstThrowList cs
termination_by cs => sizeOf cs
decreasing_by
  all_goals simp_wf
  all_goals first
    | omega
    | (have h := one_le_sizeOf_entList cs; omega)
    | exact Nat.lt_of_le_of_lt (sizeOf_getD_le _) (by omega)

end

mutual

/-- Specification-side description of the flattener contract (spec
section on the Tree Flattener): the leaf case nodes reachable from the
root in depth-first left-to-right order, each annotated with its full
path (accumulated prefix, then container identifiers on the way down,
then its own name) and paired with its depth below the starting node.
A leaf whose outcome query throws contributes nothing here; such trees
are covered by the fail-fast theorem instead. -/
def flattenerSpec : VEntity → List String → Nat → List (TestCaseResult × Nat)
  | VEntity.test name result, p, d =>
    match result with
    | Except.error _ => []
    | Except.ok r => [({ name := name, path := p ++ [name], result := r }, d)]
  | VEntity.suite name children, p, d =>
    flattenerSpecList (children.getD []) (p ++ [name]) (d + 1)
  | VEntity.mod moduleId children, p, d =>
    flattenerSpecList (children.getD []) (p ++ [moduleId]) (d + 1)
  | VEntity.other, _, _ => []
termination_by e _ _ => sizeOf e
decreasing_by
  all_goals simp_wf
  all_goals first
    | omega
    | (have h := one_le_sizeOf_entList cs; omega)
    | exact Nat.lt_of_le_of_lt (sizeOf_getD_le _) (by omega)

/-- `flattenerSpec` over a children list. -/
def flattenerSpecList : List VEntity → List String → Nat → List (TestCaseResult × Nat)
  | [], _, _ => []
  | c :: cs, p, d => flattenerSpec c p d ++ flattenerSpecList cs p d
termination_by cs _ _ => sizeOf cs
decreasing_by
  all_goals simp_wf
  all_goals first
    | omega
    | (have h := one_le_sizeOf_entList cs; omega)
    | exact Nat.lt_of_le_of_lt (sizeOf_getD_le _) (by omega)

end

/-- JS `Array.prototype.join(sep)`: concatenate with a separator. -/
def joinSep (sep : String) : List String → String
  | [] => ""
  | [x] => x
  | x :: xs => x ++ sep ++ joinSep sep xs

/-- JS `String.prototype.repeat(n)`: `n` copies of the string. -/
def strRepeat (s : String) : Nat → String
  | 0 => ""
  | n + 1 => s ++ strRepeat s n

/-- Appending one keyed element to an insertion-ordered association list
of groups: the push into a JS `Map` of arrays (`if (!m.has(k)) m.set(k, []);
m.get(k).push(a)`), with iteration in key-insertion order. -/
def insertGroup {α : Type} : List (String × List α) → String → α → List (String × List α)
  | [], k, a => [(k, [a])]
  | (k2, as) :: m, k, a =>
    if k2 = k then (k2, as ++ [a]) :: m
    else (k2, as) :: insertGroup m k a

/-- Grouping a list by a string key into a JS `Map`-style association
list whose keys appear in first-seen order. -/
def groupByKey {α : Type} (key : α → String) (l : List α) : List (String × List α) :=
  l.foldl (fun m a => insertGroup m (key a) a) []

/-- Specification-side helper: the distinct keys of a list in first-seen
order. -/
def firstSeen : List String → List String
  | [] => []
  | k :: ks => k :: firstSeen (ks.filter (fun x => x != k))
termination_by l => l.length
decreasing_by
  simp_wf
  have h := List.length_filter_le (fun x => x != k) ks
  omega

/-- The first character of a string, if any. -/
def firstChar (s : String) : Option Char := s.data.head?

/-- Does the entity's (possibly undefined) outcome have the given state?
Mirrors `r.result.state === s` as used on already-filtered entities. -/
def hasState (t : TestCaseResult) (s : String) : Bool :=
  match t.result with
  | some r => r.state == s
  | none => false

/-- The diff rendering of `formatTestResults`: every line of the diff
text individually prefixed with four spaces, re-joined, pushed as one
output element. -/
def diffBlock (d : String) : String :=
  joinSep ("\n") ((d.splitOn ("\n")).map (fun line => ("    ") ++ line))

/-- The per-failing-test block of `formatTestResults`: the pushed
`\n✗ <subpath>` element (the leading newline renders the blank line),
then per error an `  Error:` line when `error.message` is truthy
(present and non-empty) and an `  Diff:` header plus the prefixed diff
text when `error.diff` is truthy. -/
def failureBlock (test : TestCaseResult) : List String :=
  [("\n✗ ") ++ joinSep (" > ") (test.path.drop 1)]
  ++ (match test.result with
      | some res =>
        (res.errors.getD []).flatMap (fun err =>
          (match err.message with
           | some m => if m = "" then [] else [("  Error: ") ++ m]
           | none => [])
          ++ (match err.diff with
              | some dd => if dd = "" then [] else [("  Diff:"), diffBlock dd]
              | none => []))
      | none => [])

/-- The per-file-group body of the `formatTestResults` loop: nothing at
all when the group has no failing test, otherwise the `File:` header,
the `‾` underline capped at 80, the failure blocks in traversal order,
and a trailing blank line. -/
def fileSection (g : String × List TestCaseResult) : List String :=
  let fileFailures := g.2.filter (fun t => hasState t ("failed"))
  if 0 < fileFailures.length then
    [("File: ") ++ g.1, strRepeat ("‾") (min g.1.length 80)]
    ++ fileFailures.flatMap (fun test => failureBlock test)
    ++ [""]
  else []

/-- Embedding of `formatTestResults` from `build/formatTestResults.js`,
as the list of strings pushed onto `output` (the returned report is this
list joined with newlines): filter to defined results, compute the
passed/failed/skipped/total counts, group by `path[0]` (the head of the
path; flattener outputs always have a nonempty path), emit the summary
header with conditional Failed/Skipped lines, then the per-file-group
sections. -/
def formatTestResultsOutput (r : List TestCaseResult) : List String :=
  let results := r.filter (fun t => t.result.isSome)
  let passed := (results.filter (fun t => hasState t ("passed"))).length
  let failed := (results.filter (fun t => hasState t ("failed"))).length
  let skipped := (results.filter (fun t => hasState t ("skipped"))).length
  let total := results.length
  let testsByFile := groupByKey (fun t => t.path.headD ("")) results
  (["Test Run Summary", "================",
    ("Total Tests: ") ++ toString total, ("✓ Passed: ") ++ toString passed]
    ++ (if 0 < failed then [("✗ Failed: ") ++ toString failed] else [])
    ++ (if 0 < skipped then [("- Skipped: ") ++ toString skipped] else [])
    ++ [""])
  ++ testsByFile.flatMap fileSection

/-- The final report string of `formatTestResults`: the output lines
joined with newlines. -/
def formatTestResults (r : List TestCaseResult) : String :=
  joinSep ("\n") (formatTestResultsOutput r)

/-- A structured type-check error record as built by `runTypeCheck`. -/
structure TypeCheckError where
  file : String
  line : Nat
  column : Nat
  code : Int
  message : String
  deriving DecidableEq, Repr

/-- The underline marker string of `formatTypeErrors` exactly as it
appears in `src/typeCheck.ts` (a three-character sequence, unlike the
single `‾` used by the test report formatter). -/
def tcUnderlineMarker : String := "â€¾"

/-- Embedding of `formatTypeErrors` from `src/typeCheck.ts` for the
non-empty case, as the list of strings pushed onto `output`: count
header with singular/plural form, blank line, then per-file groups in
first-seen order with `File:` header, capped underline, one line per
error in input order, and a trailing blank line per group. -/
def formatTypeErrorsOutput (errors : List TypeCheckError) : List String :=
  [("Found ") ++ toString errors.length ++ (" type error")
     ++ (if errors.length = 1 then "" else "s") ++ (":"), ""]
  ++ (groupByKey (fun e => e.file) errors).flatMap (fun g =>
      [("File: ") ++ g.1, strRepeat tcUnderlineMarker (min g.1.length 80)]
      ++ g.2.map (fun e =>
          toString e.line ++ (":") ++ toString e.column ++ (" - error TS")
            ++ toString e.code ++ (": ") ++ e.message)
      ++ [""])

/-- Embedding of `formatTypeErrors`: the fixed sentinel on empty input,
otherwise the output lines joined with newlines. -/
def formatTypeErrors (errors : List TypeCheckError) : String :=
  if errors.length = 0 then "No type errors found!"
  else joinSep ("\n") (formatTypeErrorsOutput errors)

/-- Opaque parsed-JSON payload of a configuration file. -/
abbrev ConfigJson := String

/-- Opaque resolved compiler-options payload. -/
abbrev CompilerOpts := String

/-- A diagnostic message: a plain string or a chain with nested
sub-messages, mirroring `string | DiagnosticMessageChain`. -/
inductive MessageText where
  | plain (s : String)
  | chain (s : String) (next : List MessageText)

/-- The source-file association of a diagnostic: its file name and its
offset-to-position query. -/
structure DiagSourceFile where
  fileName : String
  getLineAndCharacterOfPosition : Nat → Nat × Nat

/-- A diagnostic reported by the type-check engine: optional source-file
association, character offset, integer code, and message text. -/
structure Diagnostic where
  file : Option DiagSourceFile
  start : Nat
  code : Int
  messageText : MessageText

/-- Result of reading the configuration file: its JSON payload and an
optional parse-failure message. -/
structure ReadConfigResult where
  config : ConfigJson
  error : Option String

/-- Result of resolving the configuration into compiler options, a file
list, and option-validation error messages. -/
structure ParsedCommandLine where
  options : CompilerOpts
  fileNames : List String
  errors : List String

/-- The external type-check engine and path collaborators consumed by
`runTypeCheck` (the `ts` and `path` modules), as an abstract
environment. -/
structure TSEnv where
  findConfigFile : String → Option String
  readConfigFile : String → ReadConfigResult
  parseJsonConfigFileContent : ConfigJson → String → ParsedCommandLine
  dirname : String → String
  relative : String → String → String
  getPreEmitDiagnostics : List String → CompilerOpts → List Diagnostic
  flattenDiagnosticMessageText : MessageText → String → String

/-- Record construction of `runTypeCheck`: with a source-file
association, 1-based line/column from the character offset and a
project-relative path; otherwise empty-string/0/0; always the flattened
message (sub-messages joined by newlines) and the diagnostic's code. -/
def typeCheckErrorOfDiagnostic (env : TSEnv) (projectPath : String) (d : Diagnostic) :
    TypeCheckError :=
  match d.file with
  | some f =>
    let lc := f.getLineAndCharacterOfPosition d.start
    { file := env.relative projectPath f.fileName
      line := lc.1 + 1
      column := lc.2 + 1
      code := d.code
      message := env.flattenDiagnosticMessageText d.messageText ("\n") }
  | none =>
    { file := ""
      line := 0
      column := 0
      code := d.code
      message := env.flattenDiagnosticMessageText d.messageText ("\n") }

/-- Embedding of `runTypeCheck` from `src/typeCheck.ts`: find the
configuration file (throw when absent), read it (throw on a read
error), resolve it (throw when validation errors exist, joining all
messages), then map every pre-emit diagnostic to a record — a non-empty
diagnostic list is an ordinary `ok` result. -/
def runTypeCheck (env : TSEnv) (projectPath : String) : Except String (List TypeCheckError) :=
  match env.findConfigFile projectPath with
  | none => Except.error ("Could not find a tsconfig.json file")
  | some configPath =>
    let rc := env.readConfigFile configPath
    match rc.error with
    | some e => Except.error (("Error reading tsconfig.json: ") ++ e)
    | none =>
      let parsed := env.parseJsonConfigFileContent rc.config (env.dirname configPath)
      if 0 < parsed.errors.length then
        Except.error (("Error parsing tsconfig.json: ") ++ joinSep ("\n") parsed.errors)
      else
        Except.ok ((env.getPreEmitDiagnostics parsed.fileNames parsed.options).map
          (typeCheckErrorOfDiagnostic env projectPath))

/-- The optional file selector accepted by both tool schemas:
`string | string[] | null | undefined`, with anything else rejected by
schema validation (carrying the validation error's description). -/
inductive FilesArg where
  | absent
  | nullArg
  | strArg (s : String)
  | arrArg (ss : List String)
  | invalid (description : String)

/-- The zod schema's `safeParse` plus transform: absent and `null`
normalize to `undefined`, a single string becomes a one-element array,
an array stays; a value of any other shape fails validation. -/
def parseFilesArg : FilesArg → Except String (Option (List String))
  | FilesArg.absent => Except.ok none
  | FilesArg.nullArg => Except.ok none
  | FilesArg.strArg s => Except.ok (some [s])
  | FilesArg.arrArg ss => Except.ok (some ss)
  | FilesArg.invalid d => Except.error d

/-- A tool-call response content item: the text payload and the error
flag (`isError` is emitted only on failures). -/
structure CallToolResult where
  text : String
  isError : Bool
  deriving DecidableEq, Repr

/-- The dispatcher's environment: the resolved project directory, the
type-check collaborators, and the test engine (`startVitest` yields
`none` on failure, otherwise the reported entity per file task). -/
structure ServerEnv where
  projectDir : String
  ts : TSEnv
  vitest : Option (List (Option VEntity))

/-- The `run_tests` result collection loop: flatten every reported file
entity with an empty path prefix and concatenate. -/
def collectReportedResults : List (Option VEntity) → Except String (List TestCaseResult)
  | [] => Except.ok []
  | f :: fs => do
    let r ← extractTestCases f []
    let rs ← collectReportedResults fs
    pure (r ++ rs)

/-- The `try` body of the `CallToolRequestSchema` handler in
`build/index.js`: dispatch on the tool name; `run_tests` validates its
arguments, runs the engine and formats the flattened results;
`type_check` validates its arguments, runs the collector (wrapping its
failures as `Type checking failed: …`) and formats the records; any
other name throws `Unknown tool: <name>`. -/
def callToolBody (env : ServerEnv) (toolName : String) (args : FilesArg) :
    Except String String :=
  if toolName = "run_tests" then
    match parseFilesArg args with
    | Except.error e => Except.error (("Invalid arguments for run_tests: ") ++ e)
    | Except.ok _testFiles =>
      match env.vitest with
      | none => Except.error ("Failed to start Vitest")
      | some files => do
        let allTestResults ← collectReportedResults files
        pure (formatTestResults allTestResults)
  else if toolName = "type_check" then
    match parseFilesArg args with
    | Except.error e => Except.error (("Invalid arguments for type_check: ") ++ e)
    | Except.ok _files =>
      match runTypeCheck env.ts env.projectDir with
      | Except.ok errors => Except.ok (formatTypeErrors errors)
      | Except.error msg => Except.error (("Type checking failed: ") ++ msg)
  else Except.error (("Unknown tool: ") ++ toolName)

/-- The outermost boundary of the dispatcher: the `catch` converting any
thrown failure into an error-flagged text payload `Error: <message>`,
and a successful body into a non-error text payload. -/
def handleCallTool (env : ServerEnv) (toolName : String) (args : FilesArg) : CallToolResult :=
  match callToolBody env toolName args with
  | Except.ok text => { text := text, isError := false }
  | Except.error m => { text := ("Error: ") ++ m, isError := true }

/-- A small concrete test-result tree whose outcome queries all
succeed: a module holding a suite with one passed case, then a failed
case. -/
def exTree : VEntity :=
  VEntity.mod ("a.test.ts") (some
    [VEntity.suite ("suite1") (some
      [VEntity.test ("case1") (Except.ok (some { state := "passed", errors := none }))]),
     VEntity.test ("case2") (Except.ok (some { state := "failed", errors := some [] }))])

/-- A concrete tree containing a leaf whose outcome query throws. -/
def exThrowTree : VEntity :=
  VEntity.suite ("s") (some
    [VEntity.test ("good") (Except.ok (some { state := "passed", errors := none })),
     VEntity.test ("bad") (Except.error ("boom"))])

/-- Concrete type-check error records over two files, with the first
file recurring (first-seen-order grouping visible). -/
def exTypeErrors : List TypeCheckError :=
  [{ file := "a.ts", line := 3, column := 5, code := 2322, message := "boom" },
   { file := "b.ts", line := 1, column := 1, code := 2304, message := "missing" },
   { file := "a.ts", line := 7, column := 2, code := 2345, message := "bad" }]

/-- One failing entity whose single error carries an empty `message`
and an empty `diff` (both present but falsy in JS). -/
def exEmptyMessage : List TestCaseResult :=
  [{ name := "case1", path := ["a.test.ts", "case1"],
     result := some { state := "failed", errors := some [{ message := some "", diff := some "" }] } }]

/-- A type-check environment in which no configuration file is
discoverable. -/
def tsEnvNoConfig : TSEnv where
  findConfigFile := fun _ => none
  readConfigFile := fun _ => { config := "", error := none }
  parseJsonConfigFileContent := fun _ _ => { options := "", fileNames := [], errors := [] }
  dirname := fun s => s
  relative := fun _ s => s
  getPreEmitDiagnostics := fun _ _ => []
  flattenDiagnosticMessageText := fun t _ =>
    match t with
    | MessageText.plain s => s
    | MessageText.chain s _ => s

/-- A concrete diagnostic with a source-file association. -/
def exDiagWithFile : Diagnostic where
  file := some { fileName := "src/a.ts", getLineAndCharacterOfPosition := fun n => (n, n + 2) }
  start := 1
  code := 2322
  messageText := MessageText.plain ("Type mismatch")

/-- A healthy type-check environment reporting one diagnostic that is
associated to a source file. -/
def tsEnvOneDiag : TSEnv :=
  { tsEnvNoConfig with
    findConfigFile := fun _ => some ("tsconfig.json")
    getPreEmitDiagnostics := fun _ _ => [exDiagWithFile] }

/-- A healthy type-check environment reporting no diagnostics. -/
def tsEnvClean : TSEnv :=
  { tsEnvNoConfig with findConfigFile := fun _ => some ("tsconfig.json") }

/-- A concrete diagnostic without a source-file association. -/
def exDiagNoFile : Diagnostic where
  file := none
  start := 0
  code := 5042
  messageText := MessageText.plain ("Global option error")

/-- A dispatcher environment whose type-check collaborators are healthy
and report no diagnostics. -/
def serverEnvClean : ServerEnv where
  projectDir := "/proj"
  ts := tsEnvClean
  vitest := none

/-- Well-founded induction on the size of a test-result tree. -/
theorem entityInduction (P : VEntity → Prop)
    (h : ∀ e : VEntity, (∀ c : VEntity, sizeOf c < sizeOf e → P c) → P e) :
    ∀ e, P e := by
  have key : ∀ (n : Nat) (e : VEntity), sizeOf e < n → P e := by
    intro n
    induction n with
    | zero => intro e he; omega
    | succ n ih => intro e he; exact h e (fun c hc => ih c (by omega))
  intro e
  exact key (sizeOf e + 1) e (by omega)

/-- A member of a `children ?? []` collection is smaller than the
optional collection. -/
theorem sizeOf_lt_of_mem_children {c : VEntity} {ch : Option (List VEntity)}
    (h : c ∈ ch.getD []) : sizeOf c < 1 + sizeOf ch := by
  cases ch with
  | none => simp [Option.getD] at h
  | some l =>
    simp only [Option.getD] at h
    have h2 := List.sizeOf_lt_of_mem h
    simp
    omega

/-- The head character of an append is the head character of its
non-empty left part. -/
theorem firstChar_append (p q : String) (h : p ≠ "") :
    firstChar (p ++ q) = firstChar p := by
  have hd : p.data ≠ [] := fun he => h (String.ext he)
  rw [firstChar, firstChar, String.data_append]
  cases hp : p.data with
  | nil => exact absurd hp hd
  | cons c cs => simp

/-- Strings with different head characters are different. -/
theorem ne_of_firstChar_ne {s t : String} (h : firstChar s ≠ firstChar t) : s ≠ t := by
  intro he
  exact h (congrArg firstChar he)

/-- Appends whose non-empty left parts start with different characters
are different. -/
theorem append_ne_append_of_firstChar {p q p2 q2 : String} (hp : p ≠ "") (hp2 : p2 ≠ "")
    (h : firstChar p ≠ firstChar p2) : p ++ q ≠ p2 ++ q2 := by
  intro he
  apply h
  rw [← firstChar_append p q hp, ← firstChar_append p2 q2 hp2, he]

/-- An append with a non-empty left part differs from any string with a
different head character. -/
theorem append_ne_of_firstChar {p q t : String} (hp : p ≠ "")
    (h : firstChar p ≠ firstChar t) : p ++ q ≠ t := by
  intro he
  apply h
  rw [← he, firstChar_append _ _ hp]

/-- An append with a non-empty left part is non-empty. -/
theorem append_ne_empty (p q : String) (h : p ≠ "") : p ++ q ≠ "" := by
  intro he
  apply h
  have hd := congrArg String.data he
  rw [String.data_append] at hd
  exact String.ext (List.append_eq_nil.1 hd).1

/-- `firstSeen` keeps exactly the members of the input. -/
theorem mem_firstSeen (l : List String) : ∀ x : String, x ∈ firstSeen l ↔ x ∈ l := by
  induction l using firstSeen.induct with
  | case1 => intro x; rw [firstSeen]
  | case2 k ks ih =>
    intro x
    rw [firstSeen]
    by_cases hx : x = k
    · subst hx; simp
    · simp only [List.mem_cons, ih, List.mem_filter]
      constructor
      · rintro (h | ⟨h, _⟩)
        · exact Or.inl h
        · exact Or.inr h
      · rintro (h | h)
        · exact Or.inl h
        · refine Or.inr ⟨h, ?_⟩
          simp [hx]

/-- `firstSeen` has no duplicate keys. -/
theorem nodup_firstSeen (l : List String) : (firstSeen l).Nodup := by
  induction l using firstSeen.induct with
  | case1 => rw [firstSeen]; exact List.nodup_nil
  | case2 k ks ih =>
    rw [firstSeen]
    refine List.Nodup.cons ?_ ih
    intro hk
    have h2 := (mem_firstSeen _ k).1 hk
    simp [List.mem_filter] at h2

/-- Effect of appending one key on the first-seen key sequence. -/
theorem firstSeen_append_singleton (l : List String) (k : String) :
    firstSeen (l ++ [k]) = if k ∈ l then firstSeen l else firstSeen l ++ [k] := by
  induction l using firstSeen.induct with
  | case1 => simp [firstSeen]
  | case2 k2 ks ih =>
    rw [List.cons_append, firstSeen, List.filter_append, firstSeen]
    by_cases hk : k = k2
    · subst hk
      simp only [List.mem_cons, true_or, if_true]
      have hf : List.filter (fun x => x != k) [k] = [] := by simp
      rw [hf, List.append_nil]
    · have hf : List.filter (fun x => x != k2) [k] = [k] := by simp [hk]
      rw [hf, ih]
      have hmem : k ∈ List.filter (fun x => x != k2) ks ↔ k ∈ ks := by
        simp [List.mem_filter, hk]
      by_cases hks : k ∈ ks
      · rw [if_pos (hmem.2 hks), if_pos (by simp [hks])]
      · rw [if_neg (fun hc => hks (hmem.1 hc)),
          if_neg (by simp [hks, hk]), List.cons_append]

/-- Inserting an already-present key appends the element to that key's
group in place. -/
theorem insertGroup_map_of_mem {α : Type} (ks : List String) (f : String → List α)
    (k : String) (a : α) (hnd : ks.Nodup) (hk : k ∈ ks) :
    insertGroup (ks.map (fun x => (x, f x))) k a =
      ks.map (fun x => (x, if x = k then f x ++ [a] else f x)) := by
  induction ks with
  | nil => cases hk
  | cons x ks ih =>
    simp only [List.map_cons, insertGroup]
    rcases List.nodup_cons.1 hnd with ⟨hx_notmem, hnd2⟩
    by_cases hx : x = k
    · rw [if_pos hx, if_pos hx]
      have : ks.map (fun y => (y, if y = k then f y ++ [a] else f y)) =
          ks.map (fun y => (y, f y)) := by
        apply List.map_congr_left
        intro y hy
        have hyk : y ≠ k := fun he => hx_notmem (by rw [hx, ← he]; exact hy)
        rw [if_neg hyk]
      rw [this]
    · rw [if_neg hx, if_neg hx]
      have hk2 : k ∈ ks := by
        rcases List.mem_cons.1 hk with h | h
        · exact absurd h.symm hx
        · exact h
      rw [ih hnd2 hk2]

/-- Inserting a fresh key appends a new singleton group at the end. -/
theorem insertGroup_map_of_not_mem {α : Type} (ks : List String) (f : String → List α)
    (k : String) (a : α) (hk : k ∉ ks) :
    insertGroup (ks.map (fun x => (x, f x))) k a =
      ks.map (fun x => (x, f x)) ++ [(k, [a])] := by
  induction ks with
  | nil => rfl
  | cons x ks ih =>
    simp only [List.map_cons, insertGroup]
    have hx : x ≠ k := fun he => hk (by rw [he]; exact List.mem_cons_self k ks)
    rw [if_neg hx, ih (fun hc => hk (List.mem_cons_of_mem x hc)), List.cons_append]

/-- The JS `Map`-style grouping equals its declarative description:
keys in first-seen order, each paired with the input-order sublist of
elements carrying that key. -/
theorem groupByKey_eq {α : Type} (key : α → String) (l : List α) :
    groupByKey key l =
      (firstSeen (l.map key)).map (fun k => (k, l.filter (fun a => key a == k))) := by
  induction l using List.reverseRecOn with
  | nil => simp [groupByKey, firstSeen]
  | append_singleton l a ih =>
    have hfold : groupByKey key (l ++ [a]) = insertGroup (groupByKey key l) (key a) a := by
      simp only [groupByKey, List.foldl_append, List.foldl_cons, List.foldl_nil]
    rw [hfold, ih]
    have hks : List.map key (l ++ [a]) = List.map key l ++ [key a] := by simp
    rw [hks, firstSeen_append_singleton]
    by_cases hmem : key a ∈ l.map key
    · rw [insertGroup_map_of_mem _ _ _ _ (nodup_firstSeen _) ((mem_firstSeen _ _).2 hmem),
        if_pos hmem]
      apply List.map_congr_left
      intro k hk
      rw [List.filter_append]
      by_cases hka : k = key a
      · rw [if_pos hka]
        have : List.filter (fun b => key b == k) [a] = [a] := by simp [hka]
        rw [this]
      · rw [if_neg hka]
        have hka2 : ¬ key a = k := fun he => hka he.symm
        have : List.filter (fun b => key b == k) [a] = [] := by simp [hka2]
        rw [this, List.append_nil]
    · rw [insertGroup_map_of_not_mem _ _ _ _ (fun hc => hmem ((mem_firstSeen _ _).1 hc)),
        if_neg hmem, List.map_append]
      congr 1
      · apply List.map_congr_left
        intro k hk
        have hk2 : k ∈ l.map key := (mem_firstSeen _ _).1 hk
        have hka : key a ≠ k := fun he => hmem (by rw [he]; exact hk2)
        rw [List.filter_append]
        have : List.filter (fun b => key b == k) [a] = [] := by simp [hka]
        rw [this, List.append_nil]
      · simp only [List.map_cons, List.map_nil]
        have : List.filter (fun b => key b == key a) l = [] := by
          rw [List.filter_eq_nil_iff]
          intro b hb
          simp only [beq_iff_eq]
          exact fun he => hmem (he ▸ List.mem_map_of_mem key hb)
        rw [List.filter_append, this, List.nil_append]
        simp

/-- The head character of a newline join is the head character of its
non-empty first element. -/
theorem firstChar_joinSep_cons (sep x : String) (xs : List String) (h : x ≠ "") :
    firstChar (joinSep sep (x :: xs)) = firstChar x := by
  cases xs with
  | nil => rw [joinSep]
  | cons y ys =>
    have hx : x ++ sep ≠ "" := by
      intro he
      apply h
      have hd := congrArg String.data he
      rw [String.data_append] at hd
      exact String.ext (List.append_eq_nil.1 hd).1
    have hj : joinSep sep (x :: y :: ys) = x ++ sep ++ joinSep sep (y :: ys) := by
      rw [joinSep]
      all_goals simp
    rw [hj, firstChar_append _ _ hx, firstChar_append _ _ h]

/-- Child-list form of the flattener correctness: if every member's
traversal agrees with its specification flattening, the concatenated
traversal agrees with the list specification flattening. -/
theorem extractFromChildren_ok_aux (cs : List VEntity)
    (hel : ∀ c ∈ cs, ∀ (p : List String) (d : Nat), noThrow c = true →
      extractTestCases (some c) p = Except.ok ((flattenerSpec c p d).map Prod.fst)) :
    ∀ (p : List String) (d : Nat), noThrowList cs = true →
      extractFromChildren cs p = Except.ok ((flattenerSpecList cs p d).map Prod.fst) := by
  induction cs with
  | nil => intro p d _; simp [extractFromChildren, flattenerSpecList]
  | cons c cs ihl =>
    intro p d hnt
    rw [noThrowList] at hnt
    simp only [Bool.and_eq_true] at hnt
    obtain ⟨h1, h2⟩ := hnt
    rw [extractFromChildren,
      hel c (List.mem_cons_self c cs) p d h1,
      ihl (fun c2 hc2 => hel c2 (List.mem_cons_of_mem c hc2)) p d h2]
    simp only [flattenerSpecList, List.map_append]
    rfl

/-- The flattener returns `ok` of exactly the specification flattening
whenever no reachable outcome query throws, for every path prefix and
every depth annotation. -/
theorem extract_ok_of_noThrow :
    ∀ (e : VEntity) (p : List String) (d : Nat), noThrow e = true →
      extractTestCases (some e) p = Except.ok ((flattenerSpec e p d).map Prod.fst) := by
  intro e0
  induction e0 using entityInduction with
  | h e ih =>
    intro p d hnt
    cases e with
    | test nm res =>
      cases res with
      | error e2 => simp [noThrow, Except.isOk, Except.toBool] at hnt
      | ok r => simp [extractTestCases, flattenerSpec]
    | suite nm ch =>
      rw [noThrow] at hnt
      rw [extractTestCases, flattenerSpec]
      exact extractFromChildren_ok_aux _
        (fun c hc p2 d2 h =>
          ih c (by have hlt := sizeOf_lt_of_mem_children hc; simp; omega) p2 d2 h)
        _ _ hnt
    | mod nm ch =>
      rw [noThrow] at hnt
      rw [extractTestCases, flattenerSpec]
      exact extractFromChildren_ok_aux _
        (fun c hc p2 d2 h =>
          ih c (by have hlt := sizeOf_lt_of_mem_children hc; simp; omega) p2 d2 h)
        _ _ hnt
    | other => simp [extractTestCases, flattenerSpec]

/-- Child-list form of the path-shape property of the specification
flattening. -/
theorem flattenerSpecList_shape_aux (cs : List VEntity)
    (hel : ∀ c ∈ cs, ∀ (p : List String) (d : Nat) (pr : TestCaseResult × Nat),
      pr ∈ flattenerSpec c p d →
      d ≤ pr.2 ∧ ∃ mid : List String,
        pr.1.path = p ++ mid ++ [pr.1.name] ∧ mid.length = pr.2 - d) :
    ∀ (p : List String) (d : Nat) (pr : TestCaseResult × Nat),
      pr ∈ flattenerSpecList cs p d →
      d ≤ pr.2 ∧ ∃ mid : List String,
        pr.1.path = p ++ mid ++ [pr.1.name] ∧ mid.length = pr.2 - d := by
  induction cs with
  | nil => intro p d pr hm; simp [flattenerSpecList] at hm
  | cons c cs ihl =>
    intro p d pr hm
    rw [flattenerSpecList, List.mem_append] at hm
    rcases hm with hm | hm
    · exact hel c (List.mem_cons_self c cs) p d pr hm
    · exact ihl (fun c2 hc2 => hel c2 (List.mem_cons_of_mem c hc2)) p d pr hm

/-- Every entity emitted by the specification flattening has path
`prefix ++ containers ++ [own name]`, with as many container segments as
its depth below the starting node. -/
theorem flattenerSpec_path_shape :
    ∀ (e : VEntity) (p : List String) (d : Nat) (pr : TestCaseResult × Nat),
      pr ∈ flattenerSpec e p d →
      d ≤ pr.2 ∧ ∃ mid : List String,
        pr.1.path = p ++ mid ++ [pr.1.name] ∧ mid.length = pr.2 - d := by
  intro e0
  induction e0 using entityInduction with
  | h e ih =>
    intro p d pr hm
    cases e with
    | test nm res =>
      cases res with
      | error e2 => simp [flattenerSpec] at hm
      | ok r =>
        simp only [flattenerSpec, List.mem_singleton] at hm
        subst hm
        refine ⟨Nat.le_refl _, [], ?_, ?_⟩
        · simp
        · simp
    | suite nm ch =>
      rw [flattenerSpec] at hm
      have hres := flattenerSpecList_shape_aux _
        (fun c hc p2 d2 pr2 hm2 =>
          ih c (by have hlt := sizeOf_lt_of_mem_children hc; simp; omega) p2 d2 pr2 hm2)
        _ _ _ hm
      obtain ⟨hd, mid, hpath, hlen⟩ := hres
      refine ⟨by omega, nm :: mid, ?_, ?_⟩
      · rw [hpath]; simp
      · simp only [List.length_cons]; omega
    | mod nm ch =>
      rw [flattenerSpec] at hm
      have hres := flattenerSpecList_shape_aux _
        (fun c hc p2 d2 pr2 hm2 =>
          ih c (by have hlt := sizeOf_lt_of_mem_children hc; simp; omega) p2 d2 pr2 hm2)
        _ _ _ hm
      obtain ⟨hd, mid, hpath, hlen⟩ := hres
      refine ⟨by omega, nm :: mid, ?_, ?_⟩
      · rw [hpath]; simp
      · simp only [List.length_cons]; omega
    | other => simp [flattenerSpec] at hm

/-- Child-list form of the correspondence between `firstThrow` and
`noThrow`. -/
theorem firstThrowList_none_aux (cs : List VEntity)
    (hel : ∀ c ∈ cs, (firstThrow c = none ↔ noThrow c = true)) :
    firstThrowList cs = none ↔ noThrowList cs = true := by
  induction cs with
  | nil => simp [firstThrowList, noThrowList]
  | cons c cs ihl =>
    rw [firstThrowList, noThrowList]
    cases hft : firstThrow c with
    | some e2 =>
      have hnc : ¬ noThrow c = true := fun hc =>
        by rw [(hel c (List.mem_cons_self c cs)).2 hc] at hft; cases hft
      simp [hnc]
    | none =>
      have hnc : noThrow c = true := (hel c (List.mem_cons_self c cs)).1 hft
      simp only [hnc, Bool.true_and]
      exact ihl (fun c2 hc2 => hel c2 (List.mem_cons_of_mem c hc2))

/-- A tree has no first thrown failure exactly when no reachable
outcome query throws. -/
theorem firstThrow_eq_none_iff :
    ∀ e : VEntity, firstThrow e = none ↔ noThrow e = true := by
  intro e0
  induction e0 using entityInduction with
  | h e ih =>
    cases e with
    | test nm res =>
      cases res with
      | error e2 => simp [firstThrow, noThrow, Except.isOk, Except.toBool]
      | ok r => simp [firstThrow, noThrow, Except.isOk, Except.toBool]
    | suite nm ch =>
      rw [firstThrow, noThrow]
      exact firstThrowList_none_aux _
        (fun c hc => ih c (by have hlt := sizeOf_lt_of_mem_children hc; simp; omega))
    | mod nm ch =>
      rw [firstThrow, noThrow]
      exact firstThrowList_none_aux _
        (fun c hc => ih c (by have hlt := sizeOf_lt_of_mem_children hc; simp; omega))
    | other => simp [firstThrow, noThrow]

/-- Child-list form of the fail-fast property. -/
theorem extractFromChildren_error_aux (cs : List VEntity)
    (hel : ∀ c ∈ cs, ∀ (p : List String) (m : String), firstThrow c = some m →
      extractTestCases (some c) p = Except.error m) :
    ∀ (p : List String) (m : String), firstThrowList cs = some m →
      extractFromChildren cs p = Except.error m := by
  induction cs with
  | nil => intro p m hm; simp [firstThrowList] at hm
  | cons c cs ihl =>
    intro p m hm
    rw [firstThrowList] at hm
    cases hft : firstThrow c with
    | some e2 =>
      rw [hft] at hm
      cases hm
      rw [extractFromChildren, hel c (List.mem_cons_self c cs) p m hft]
      rfl
    | none =>
      rw [hft] at hm
      have hnc : noThrow c = true := (firstThrow_eq_none_iff c).1 hft
      rw [extractFromChildren, extract_ok_of_noThrow c p 0 hnc,
        ihl (fun c2 hc2 => hel c2 (List.mem_cons_of_mem c hc2)) p m hm]
      rfl

/-- The flattener propagates the first reachable thrown outcome-query
failure as its own failure, for every path prefix. -/
theorem extract_error_of_firstThrow :
    ∀ (e : VEntity) (p : List String) (m : String), firstThrow e = some m →
      extractTestCases (some e) p = Except.error m := by
  intro e0
  induction e0 using entityInduction with
  | h e ih =>
    intro p m hm
    cases e with
    | test nm res =>
      cases res with
      | error e2 =>
        rw [firstThrow] at hm
        cases hm
        rw [extractTestCases]
      | ok r => simp [firstThrow] at hm
    | suite nm ch =>
      rw [firstThrow] at hm
      rw [extractTestCases]
      exact extractFromChildren_error_aux _
        (fun c hc p2 m2 h =>
          ih c (by have hlt := sizeOf_lt_of_mem_children hc; simp; omega) p2 m2 h)
        _ _ hm
    | mod nm ch =>
      rw [firstThrow] at hm
      rw [extractTestCases]
      exact extractFromChildren_error_aux _
        (fun c hc p2 m2 h =>
          ih c (by have hlt := sizeOf_lt_of_mem_children hc; simp; omega) p2 m2 h)
        _ _ hm
    | other => simp [firstThrow] at hm

/-- C2: for every input tree (absent root, containers with no or absent
children, and unrecognized node kinds all handled) whose reachable
outcome queries do not throw, the flattener returns exactly the leaf
test-case nodes in depth-first left-to-right traversal order as given by
the specification flattening, and every emitted entity's path is the
given prefix followed by the container identifiers on the way down and
its own name — so the path's last element equals the entity's name and
its length equals the prefix length plus the entity's depth from the
root plus one (depth plus one for the default empty prefix). -/
theorem claim_C2_flattener (t : VEntity) (p : List String) (h : noThrow t = true) :
    extractTestCases none p = Except.ok [] ∧
    extractTestCases (some t) p = Except.ok ((flattenerSpec t p 0).map Prod.fst) ∧
    (∀ pr ∈ flattenerSpec t p 0,
      (∃ mid : List String, pr.1.path = p ++ mid ++ [pr.1.name] ∧ mid.length = pr.2) ∧
      pr.1.path.getLast? = some pr.1.name ∧
      pr.1.path.length = p.length + pr.2 + 1) := by
  refine ⟨by rw [extractTestCases], extract_ok_of_noThrow t p 0 h, ?_⟩
  intro pr hm
  obtain ⟨hd0, mid, hpath, hlen⟩ := flattenerSpec_path_shape t p 0 pr hm
  have hlen2 : mid.length = pr.2 := by omega
  refine ⟨⟨mid, hpath, hlen2⟩, ?_, ?_⟩
  · rw [hpath]
    exact List.getLast?_concat _
  · rw [hpath]
    simp [List.length_append]
    omega

/-- Witness for C2 at a concrete two-level tree with a passed and a
failed case. -/
theorem claim_C2_flattener_witness :
    noThrow exTree = true ∧
    (extractTestCases none ([] : List String) = Except.ok [] ∧
     extractTestCases (some exTree) [] = Except.ok ((flattenerSpec exTree [] 0).map Prod.fst) ∧
     (∀ pr ∈ flattenerSpec exTree [] 0,
       (∃ mid : List String, pr.1.path = [] ++ mid ++ [pr.1.name] ∧ mid.length = pr.2) ∧
       pr.1.path.getLast? = some pr.1.name ∧
       pr.1.path.length = List.length ([] : List String) + pr.2 + 1)) := by
  have hnt : noThrow exTree = true := by
    simp [exTree, noThrow, noThrowList, Except.isOk, Except.toBool]
  exact ⟨hnt, claim_C2_flattener exTree [] hnt⟩

/-- C7: a tree containing a reachable leaf case whose outcome query
throws makes the flattener propagate that first thrown failure uncaught:
the traversal produces that failure and never a (partial) success
sequence. -/
theorem claim_C7_failfast (t : VEntity) (p : List String) (m : String)
    (h : firstThrow t = some m) :
    extractTestCases (some t) p = Except.error m ∧
    ∀ l : List TestCaseResult, extractTestCases (some t) p ≠ Except.ok l := by
  have he := extract_error_of_firstThrow t p m h
  refine ⟨he, ?_⟩
  intro l hc
  rw [he] at hc
  cases hc

/-- Witness for C7 at a concrete tree whose second leaf throws. -/
theorem claim_C7_failfast_witness :
    firstThrow exThrowTree = some ("boom") ∧
    (extractTestCases (some exThrowTree) [] = Except.error ("boom") ∧
     ∀ l : List TestCaseResult, extractTestCases (some exThrowTree) [] ≠ Except.ok l) := by
  have hft : firstThrow exThrowTree = some ("boom") := by
    simp [exThrowTree, firstThrow, firstThrowList]
  exact ⟨hft, claim_C7_failfast exThrowTree [] ("boom") hft⟩

/-- C3: the diagnostic formatter returns the fixed sentinel on an empty
record sequence; on a non-empty sequence it returns the
singular/plural-aware count header, a blank line, then per-file groups
in first-seen key order, each with a `File:` header, an underline of
`min(len(file), 80)` copies of the marker, one line per record in input
order of the form `<line>:<column> - error TS<code>: <message>`, and a
trailing blank line. -/
theorem claim_C3_diagnostic_formatter (errors : List TypeCheckError) (h : errors ≠ []) :
    formatTypeErrors [] = "No type errors found!" ∧
    formatTypeErrors errors =
      joinSep ("\n")
        ([("Found ") ++ toString errors.length ++ (" type error")
            ++ (if errors.length = 1 then "" else "s") ++ (":"), ""]
          ++ (firstSeen (errors.map (fun e => e.file))).flatMap (fun f =>
              [("File: ") ++ f, strRepeat tcUnderlineMarker (min f.length 80)]
              ++ ((errors.filter (fun e => e.file == f)).map (fun e =>
                  toString e.line ++ (":") ++ toString e.column ++ (" - error TS")
                    ++ toString e.code ++ (": ") ++ e.message))
              ++ [""])) := by
  refine ⟨rfl, ?_⟩
  rw [formatTypeErrors, if_neg (fun hc => h (List.length_eq_zero.1 hc))]
  congr 1
  rw [formatTypeErrorsOutput, groupByKey_eq, List.flatMap_map]

/-- Witness for C3 at three concrete records over two files. -/
theorem claim_C3_diagnostic_formatter_witness :
    exTypeErrors ≠ [] ∧
    (formatTypeErrors [] = "No type errors found!" ∧
     formatTypeErrors exTypeErrors =
       joinSep ("\n")
         ([("Found ") ++ toString exTypeErrors.length ++ (" type error")
             ++ (if exTypeErrors.length = 1 then "" else "s") ++ (":"), ""]
           ++ (firstSeen (exTypeErrors.map (fun e => e.file))).flatMap (fun f =>
               [("File: ") ++ f, strRepeat tcUnderlineMarker (min f.length 80)]
               ++ ((exTypeErrors.filter (fun e => e.file == f)).map (fun e =>
                   toString e.line ++ (":") ++ toString e.column ++ (" - error TS")
                     ++ toString e.code ++ (": ") ++ e.message))
               ++ [""]))) :=
  ⟨by decide, claim_C3_diagnostic_formatter exTypeErrors (by decide)⟩

/-- C10: on an empty entity sequence the test report formatter emits the
ordinary header block — title, separator, `Total Tests: 0`, a
`✓ Passed: 0` line even though the passed count is zero, and a trailing
blank line — with no Failed line, no Skipped line, no file sections and
no special sentinel. -/
theorem claim_C10_empty_run :
    formatTestResultsOutput [] =
      ["Test Run Summary", "================", "Total Tests: 0", "✓ Passed: 0", ""] ∧
    formatTestResults [] =
      "Test Run Summary\n================\nTotal Tests: 0\n✓ Passed: 0\n" := by
  constructor
  · decide
  · decide

/-- C6: the diagnostic collector fails fast with no partial result —
missing configuration, unreadable configuration, and option-validation
errors (all messages joined) each produce a failure — while engine
diagnostics for the checked code are returned as an ordinary success,
a non-empty record sequence included. -/
theorem claim_C6_collector_failfast (env : TSEnv) (pp : String) :
    (env.findConfigFile pp = none →
      runTypeCheck env pp = Except.error ("Could not find a tsconfig.json file")) ∧
    (∀ cp e, env.findConfigFile pp = some cp → (env.readConfigFile cp).error = some e →
      runTypeCheck env pp = Except.error (("Error reading tsconfig.json: ") ++ e)) ∧
    (∀ cp, env.findConfigFile pp = some cp → (env.readConfigFile cp).error = none →
      (env.parseJsonConfigFileContent (env.readConfigFile cp).config (env.dirname cp)).errors ≠ [] →
      runTypeCheck env pp = Except.error (("Error parsing tsconfig.json: ")
        ++ joinSep ("\n")
          (env.parseJsonConfigFileContent (env.readConfigFile cp).config (env.dirname cp)).errors)) ∧
    (∀ cp, env.findConfigFile pp = some cp → (env.readConfigFile cp).error = none →
      (env.parseJsonConfigFileContent (env.readConfigFile cp).config (env.dirname cp)).errors = [] →
      runTypeCheck env pp = Except.ok
        ((env.getPreEmitDiagnostics
            (env.parseJsonConfigFileContent (env.readConfigFile cp).config (env.dirname cp)).fileNames
            (env.parseJsonConfigFileContent (env.readConfigFile cp).config (env.dirname cp)).options).map
          (typeCheckErrorOfDiagnostic env pp))) := by
  refine ⟨?_, ?_, ?_, ?_⟩
  · intro h1
    simp only [runTypeCheck, h1]
  · intro cp e h1 h2
    simp only [runTypeCheck, h1, h2]
  · intro cp h1 h2 h3
    simp only [runTypeCheck, h1, h2]
    rw [if_pos (List.length_pos.2 h3)]
  · intro cp h1 h2 h3
    simp only [runTypeCheck, h1, h2]
    rw [if_neg (by rw [h3]; simp)]

/-- Witness for C6: a missing configuration fails, and an environment
reporting one diagnostic succeeds with one (non-empty) record. -/
theorem claim_C6_collector_failfast_witness :
    runTypeCheck tsEnvNoConfig ("/proj")
      = Except.error ("Could not find a tsconfig.json file") ∧
    runTypeCheck tsEnvOneDiag ("/proj")
      = Except.ok
          [{ file := "src/a.ts", line := 2, column := 4, code := 2322,
             message := "Type mismatch" }] := by
  constructor
  · exact (claim_C6_collector_failfast tsEnvNoConfig ("/proj")).1 rfl
  · have h := (claim_C6_collector_failfast tsEnvOneDiag ("/proj")).2.2.2
      ("tsconfig.json") rfl rfl rfl
    rw [h]
    rfl

/-- C8: every constructed record carries — with a source-file
association — the 1-based line and column obtained from the diagnostic's
character offset and the project-relative file path, and otherwise the
empty-string/0/0 defaults; in both cases the flattened message (nested
sub-messages joined by newlines) and the diagnostic's integer code. -/
theorem claim_C8_record_construction (env : TSEnv) (pp : String) (d : Diagnostic) :
    (∀ f, d.file = some f →
      typeCheckErrorOfDiagnostic env pp d =
        { file := env.relative pp f.fileName,
          line := (f.getLineAndCharacterOfPosition d.start).1 + 1,
          column := (f.getLineAndCharacterOfPosition d.start).2 + 1,
          code := d.code,
          message := env.flattenDiagnosticMessageText d.messageText ("\n") }) ∧
    (d.file = none →
      typeCheckErrorOfDiagnostic env pp d =
        { file := "", line := 0, column := 0, code := d.code,
          message := env.flattenDiagnosticMessageText d.messageText ("\n") }) := by
  constructor
  · intro f hf
    rw [typeCheckErrorOfDiagnostic, hf]
  · intro hf
    rw [typeCheckErrorOfDiagnostic, hf]

/-- Witness for C8 at one diagnostic with and one without a file
association. -/
theorem claim_C8_record_construction_witness :
    typeCheckErrorOfDiagnostic tsEnvOneDiag ("/proj") exDiagWithFile =
      { file := "src/a.ts", line := 2, column := 4, code := 2322,
        message := "Type mismatch" } ∧
    typeCheckErrorOfDiagnostic tsEnvOneDiag ("/proj") exDiagNoFile =
      { file := "", line := 0, column := 0, code := 5042,
        message := "Global option error" } := by
  constructor
  · have h := (claim_C8_record_construction tsEnvOneDiag ("/proj") exDiagWithFile).1
      { fileName := "src/a.ts", getLineAndCharacterOfPosition := fun n => (n, n + 2) } rfl
    rw [h]
    decide
  · have h := (claim_C8_record_construction tsEnvOneDiag ("/proj") exDiagNoFile).2 rfl
    rw [h]
    decide

/-- C1: invoking the `type_check` operation with a well-formed optional
file selector dispatches to the type-check pipeline: on collector
success the dispatcher returns the diagnostic text report as a
non-error payload, and the operation is never treated as unknown. -/
theorem claim_C1_type_check_dispatched (env : ServerEnv) (args : FilesArg) :
    (∀ fs, parseFilesArg args = Except.ok fs →
      ∀ errs, runTypeCheck env.ts env.projectDir = Except.ok errs →
        handleCallTool env ("type_check") args =
          { text := formatTypeErrors errs, isError := false }) ∧
    callToolBody env ("type_check") args ≠
      Except.error (("Unknown tool: ") ++ ("type_check")) := by
  constructor
  · intro fs hp errs hr
    rw [handleCallTool, callToolBody, if_neg (by decide), if_pos rfl, hp, hr]
  · rw [callToolBody, if_neg (by decide), if_pos rfl]
    cases hp : parseFilesArg args with
    | error e =>
      intro hc
      have he := Except.error.inj hc
      exact append_ne_append_of_firstChar (by decide) (by decide) (by decide) he
    | ok fs =>
      cases hr : runTypeCheck env.ts env.projectDir with
      | ok errs => intro hc; cases hc
      | error m =>
        intro hc
        have he := Except.error.inj hc
        exact append_ne_append_of_firstChar (by decide) (by decide) (by decide) he

/-- Witness for C1: on a clean environment the dispatcher answers the
`type_check` call with the sentinel report as a success payload. -/
theorem claim_C1_type_check_dispatched_witness :
    handleCallTool serverEnvClean ("type_check") FilesArg.absent =
      { text := "No type errors found!", isError := false } := by
  have h := (claim_C1_type_check_dispatched serverEnvClean FilesArg.absent).1
    none rfl [] rfl
  rw [h]
  rfl

/-- C9: every failure inside the dispatcher is caught at the outermost
boundary and converted into an error-flagged payload `Error: <message>`
(for an unknown operation, naming it); a success is returned as a
non-error payload, and the response is error-flagged exactly when the
body failed, so no exception crosses the boundary and no partial report
is produced on failure. -/
theorem claim_C9_error_boundary (env : ServerEnv) (toolName : String) (args : FilesArg) :
    (toolName ≠ "run_tests" → toolName ≠ "type_check" →
      handleCallTool env toolName args =
        { text := ("Error: ") ++ (("Unknown tool: ") ++ toolName), isError := true }) ∧
    (∀ m, callToolBody env toolName args = Except.error m →
      handleCallTool env toolName args = { text := ("Error: ") ++ m, isError := true }) ∧
    (∀ t, callToolBody env toolName args = Except.ok t →
      handleCallTool env toolName args = { text := t, isError := false }) ∧
    ((handleCallTool env toolName args).isError = false ↔
      ∃ t, callToolBody env toolName args = Except.ok t) := by
  refine ⟨?_, ?_, ?_, ?_⟩
  · intro h1 h2
    rw [handleCallTool, callToolBody, if_neg h1, if_neg h2]
  · intro m hm
    rw [handleCallTool, hm]
  · intro t ht
    rw [handleCallTool, ht]
  · cases hb : callToolBody env toolName args with
    | ok t =>
      rw [handleCallTool, hb]
      simp
    | error m =>
      rw [handleCallTool, hb]
      simp

/-- Witness for C9: an unrecognized operation name yields the
error-flagged payload naming it. -/
theorem claim_C9_error_boundary_witness :
    handleCallTool serverEnvClean ("list_files") FilesArg.absent =
      { text := "Error: Unknown tool: list_files", isError := true } := by
  have h := (claim_C9_error_boundary serverEnvClean ("list_files") FilesArg.absent).1
    (by decide) (by decide)
  rw [h]
  rfl

/-- A repeated marker is empty or starts with the marker's head
character. -/
theorem strRepeat_empty_or_firstChar (s : String) (n : Nat) (h : s ≠ "") :
    strRepeat s n = "" ∨ firstChar (strRepeat s n) = firstChar s := by
  cases n with
  | zero => left; rfl
  | succ n => right; rw [strRepeat, firstChar_append _ _ h]

/-- A prefixed diff block is empty or starts with a space. -/
theorem diffBlock_empty_or_space (dd : String) :
    diffBlock dd = "" ∨ firstChar (diffBlock dd) = some ' ' := by
  rw [diffBlock]
  cases hs : dd.splitOn ("\n") with
  | nil => left; rfl
  | cons x xs =>
    right
    simp only [List.map_cons]
    rw [firstChar_joinSep_cons _ _ _ (append_ne_empty _ _ (by decide)),
      firstChar_append _ _ (by decide)]
    rfl

/-- Every element of a failure block is empty or starts with a newline
or a space. -/
theorem mem_failureBlock_firstChar (t : TestCaseResult) (s : String)
    (hm : s ∈ failureBlock t) :
    s = "" ∨ firstChar s = some (Char.ofNat 10) ∨ firstChar s = some ' ' := by
  rw [failureBlock] at hm
  rcases List.mem_append.1 hm with hm | hm
  · rw [List.mem_singleton.1 hm]
    right; left
    rw [firstChar_append _ _ (by decide)]
    rfl
  · cases hres : t.result with
    | none => simp only [hres] at hm; simp at hm
    | some res =>
      simp only [hres] at hm
      obtain ⟨err, herr, hm⟩ := List.mem_flatMap.1 hm
      rcases List.mem_append.1 hm with hm | hm
      · cases hmsg : err.message with
        | none => simp only [hmsg] at hm; simp at hm
        | some m =>
          simp only [hmsg] at hm
          by_cases hm0 : m = ""
          · rw [if_pos hm0] at hm; simp at hm
          · rw [if_neg hm0] at hm
            rw [List.mem_singleton.1 hm]
            right; right
            rw [firstChar_append _ _ (by decide)]
            rfl
      · cases hdiff : err.diff with
        | none => simp only [hdiff] at hm; simp at hm
        | some dd =>
          simp only [hdiff] at hm
          by_cases hd0 : dd = ""
          · rw [if_pos hd0] at hm; simp at hm
          · rw [if_neg hd0] at hm
            rcases List.mem_cons.1 hm with hm | hm
            · rw [hm]; right; right; rfl
            · rw [List.mem_singleton.1 hm]
              rcases diffBlock_empty_or_space dd with h | h
              · left; exact h
              · right; right; exact h

/-- Every element of a file section is empty or starts with `F`, `‾`, a
newline, or a space. -/
theorem mem_fileSection_firstChar (g : String × List TestCaseResult) (s : String)
    (hm : s ∈ fileSection g) :
    s = "" ∨ firstChar s = some 'F' ∨ firstChar s = some '‾' ∨
      firstChar s = some (Char.ofNat 10) ∨ firstChar s = some ' ' := by
  simp only [fileSection] at hm
  by_cases hf : 0 < (g.2.filter (fun t => hasState t ("failed"))).length
  · rw [if_pos hf] at hm
    rcases List.mem_append.1 hm with hm | hm
    · rcases List.mem_append.1 hm with hm | hm
      · rcases List.mem_cons.1 hm with hm | hm
        · rw [hm]; right; left
          rw [firstChar_append _ _ (by decide)]
          rfl
        · rw [List.mem_singleton.1 hm]
          rcases strRepeat_empty_or_firstChar ("‾") (min g.1.length 80) (by decide) with h | h
          · left; exact h
          · right; right; left; rw [h]; rfl
      · obtain ⟨t, ht, hmb⟩ := List.mem_flatMap.1 hm
        rcases mem_failureBlock_firstChar t s hmb with h | h | h
        · left; exact h
        · right; right; right; left; exact h
        · right; right; right; right; exact h
    · rw [List.mem_singleton.1 hm]; left; rfl
  · rw [if_neg hf] at hm
    cases hm

/-- No string starting with a character other than `F`, `‾`, newline or
space occurs among the file sections. -/
theorem not_mem_sections_of_firstChar (results : List TestCaseResult) (s : String)
    (hne : s ≠ "")
    (h1 : firstChar s ≠ some 'F') (h2 : firstChar s ≠ some '‾')
    (h3 : firstChar s ≠ some (Char.ofNat 10)) (h4 : firstChar s ≠ some ' ') :
    s ∉ (groupByKey (fun t => t.path.headD ("")) results).flatMap fileSection := by
  intro hmem
  obtain ⟨g, hg, hsf⟩ := List.mem_flatMap.1 hmem
  rcases mem_fileSection_firstChar g s hsf with h | h | h | h | h
  · exact hne h
  · exact h1 h
  · exact h2 h
  · exact h3 h
  · exact h4 h

/-- C4: the test report formatter drops entities with undefined results,
counts passed/failed/skipped by exact state match while the total counts
every retained entity, always emits the `Total Tests:` and `✓ Passed:`
lines, and emits the `✗ Failed:` line exactly when the failed count is
positive and the `- Skipped:` line exactly when the skipped count is
positive. -/
theorem claim_C4_summary_header (l : List TestCaseResult) :
    (("Total Tests: ") ++ toString (l.filter (fun t => t.result.isSome)).length)
      ∈ formatTestResultsOutput l ∧
    (("✓ Passed: ") ++ toString
        ((l.filter (fun t => t.result.isSome)).filter (fun t => hasState t ("passed"))).length)
      ∈ formatTestResultsOutput l ∧
    ((("✗ Failed: ") ++ toString
        ((l.filter (fun t => t.result.isSome)).filter (fun t => hasState t ("failed"))).length)
      ∈ formatTestResultsOutput l ↔
      0 < ((l.filter (fun t => t.result.isSome)).filter (fun t => hasState t ("failed"))).length) ∧
    ((("- Skipped: ") ++ toString
        ((l.filter (fun t => t.result.isSome)).filter (fun t => hasState t ("skipped"))).length)
      ∈ formatTestResultsOutput l ↔
      0 < ((l.filter (fun t => t.result.isSome)).filter (fun t => hasState t ("skipped"))).length) := by
  refine ⟨?_, ?_, ?_, ?_⟩
  · simp only [formatTestResultsOutput]
    refine List.mem_append_left _ (List.mem_append_left _
      (List.mem_append_left _ (List.mem_append_left _ ?_)))
    exact List.mem_cons_of_mem _ (List.mem_cons_of_mem _ (List.mem_cons_self _ _))
  · simp only [formatTestResultsOutput]
    refine List.mem_append_left _ (List.mem_append_left _
      (List.mem_append_left _ (List.mem_append_left _ ?_)))
    exact List.mem_cons_of_mem _ (List.mem_cons_of_mem _
      (List.mem_cons_of_mem _ (List.mem_cons_self _ _)))
  · constructor
    · intro hm
      by_cases hf : 0 < ((l.filter (fun t => t.result.isSome)).filter
          (fun t => hasState t ("failed"))).length
      · exact hf
      · exfalso
        simp only [formatTestResultsOutput] at hm
        rcases List.mem_append.1 hm with hm | hsec
        · rcases List.mem_append.1 hm with hm | hm2
          · rcases List.mem_append.1 hm with hm | hm2
            · rcases List.mem_append.1 hm with hm | hm2
              · rcases List.mem_cons.1 hm with h | hm
                · exact append_ne_of_firstChar (by decide) (by decide) h
                rcases List.mem_cons.1 hm with h | hm
                · exact append_ne_of_firstChar (by decide) (by decide) h
                rcases List.mem_cons.1 hm with h | hm
                · exact append_ne_append_of_firstChar (by decide) (by decide) (by decide) h
                rcases List.mem_cons.1 hm with h | hm
                · exact append_ne_append_of_firstChar (by decide) (by decide) (by decide) h
                · exact absurd hm (List.not_mem_nil _)
              · rw [if_neg hf] at hm2
                exact absurd hm2 (List.not_mem_nil _)
            · by_cases hs : 0 < ((l.filter (fun t => t.result.isSome)).filter
                  (fun t => hasState t ("skipped"))).length
              · rw [if_pos hs] at hm2
                rcases List.mem_singleton.1 hm2 with h
                exact append_ne_append_of_firstChar (by decide) (by decide) (by decide) h
              · rw [if_neg hs] at hm2
                exact absurd hm2 (List.not_mem_nil _)
          · rcases List.mem_singleton.1 hm2 with h
            exact append_ne_empty _ _ (by decide) h
        · exact not_mem_sections_of_firstChar _ _
            (append_ne_empty _ _ (by decide))
            (by rw [firstChar_append _ _ (by decide)]; decide)
            (by rw [firstChar_append _ _ (by decide)]; decide)
            (by rw [firstChar_append _ _ (by decide)]; decide)
            (by rw [firstChar_append _ _ (by decide)]; decide)
            hsec
    · intro hf
      simp only [formatTestResultsOutput]
      refine List.mem_append_left _ (List.mem_append_left _
        (List.mem_append_left _ (List.mem_append_right _ ?_)))
      rw [if_pos hf]
      exact List.mem_cons_self _ _
  · constructor
    · intro hm
      by_cases hs : 0 < ((l.filter (fun t => t.result.isSome)).filter
          (fun t => hasState t ("skipped"))).length
      · exact hs
      · exfalso
        simp only [formatTestResultsOutput] at hm
        rcases List.mem_append.1 hm with hm | hsec
        · rcases List.mem_append.1 hm with hm | hm2
          · rcases List.mem_append.1 hm with hm | hm2
            · rcases List.mem_append.1 hm with hm | hm2
              · rcases List.mem_cons.1 hm with h | hm
                · exact append_ne_of_firstChar (by decide) (by decide) h
                rcases List.mem_cons.1 hm with h | hm
                · exact append_ne_of_firstChar (by decide) (by decide) h
                rcases List.mem_cons.1 hm with h | hm
                · exact append_ne_append_of_firstChar (by decide) (by decide) (by decide) h
                rcases List.mem_cons.1 hm with h | hm
                · exact append_ne_append_of_firstChar (by decide) (by decide) (by decide) h
                · exact absurd hm (List.not_mem_nil _)
              · by_cases hf : 0 < ((l.filter (fun t => t.result.isSome)).filter
                    (fun t => hasState t ("failed"))).length
                · rw [if_pos hf] at hm2
                  rcases List.mem_singleton.1 hm2 with h
                  exact append_ne_append_of_firstChar (by decide) (by decide) (by decide) h
                · rw [if_neg hf] at hm2
                  exact absurd hm2 (List.not_mem_nil _)
            · rw [if_neg hs] at hm2
              exact absurd hm2 (List.not_mem_nil _)
          · rcases List.mem_singleton.1 hm2 with h
            exact append_ne_empty _ _ (by decide) h
        · exact not_mem_sections_of_firstChar _ _
            (append_ne_empty _ _ (by decide))
            (by rw [firstChar_append _ _ (by decide)]; decide)
            (by rw [firstChar_append _ _ (by decide)]; decide)
            (by rw [firstChar_append _ _ (by decide)]; decide)
            (by rw [firstChar_append _ _ (by decide)]; decide)
            hsec
    · intro hs
      simp only [formatTestResultsOutput]
      refine List.mem_append_left _ (List.mem_append_left _
        (List.mem_append_right _ ?_))
      rw [if_pos hs]
      exact List.mem_cons_self _ _

/-- C5 counterexample to the claim as stated: an entity list with one
failing entity whose single error HAS a message (the empty string) and
HAS a diff (the empty string), yet the formatter emits neither the
`  Error: ` line nor any `  Diff:` line, because the source guards both
with JS truthiness. -/
theorem claim_C5_counterexample :
    (∃ t ∈ exEmptyMessage, hasState t ("failed") = true ∧
      ∃ r, t.result = some r ∧ ∃ errs, r.errors = some errs ∧
        ∃ err ∈ errs, err.message.isSome = true ∧ err.diff.isSome = true) ∧
    (("  Error: ") ∉ formatTestResultsOutput exEmptyMessage) ∧
    (("  Diff:") ∉ formatTestResultsOutput exEmptyMessage) := by
  decide

/-- C5 (amended): entities are grouped by `path[0]` in first-seen
order; a group with no failing entity emits nothing at all; a group
with failing entities emits the `File:` header, the `‾` underline of
length `min(len(path), 80)`, and per failing entity in traversal order
the blank-line-prefixed `✗` subpath element, with an `  Error:` line
exactly when the error's message is present and non-empty, and an
`  Diff:` block exactly when its diff is present and non-empty. -/
theorem claim_C5_amended_file_sections (l : List TestCaseResult) :
    formatTestResultsOutput l =
      (["Test Run Summary", "================",
        ("Total Tests: ") ++ toString (l.filter (fun t => t.result.isSome)).length,
        ("✓ Passed: ") ++ toString ((l.filter (fun t => t.result.isSome)).filter
          (fun t => hasState t ("passed"))).length]
        ++ (if 0 < ((l.filter (fun t => t.result.isSome)).filter
              (fun t => hasState t ("failed"))).length then
              [("✗ Failed: ") ++ toString ((l.filter (fun t => t.result.isSome)).filter
                (fun t => hasState t ("failed"))).length] else [])
        ++ (if 0 < ((l.filter (fun t => t.result.isSome)).filter
              (fun t => hasState t ("skipped"))).length then
              [("- Skipped: ") ++ toString ((l.filter (fun t => t.result.isSome)).filter
                (fun t => hasState t ("skipped"))).length] else [])
        ++ [""])
      ++ (firstSeen ((l.filter (fun t => t.result.isSome)).map
            (fun t => t.path.headD ("")))).flatMap (fun f =>
          if ((l.filter (fun t => t.result.isSome)).filter
                (fun t => t.path.headD ("") == f)).filter
                (fun t => hasState t ("failed")) = [] then []
          else
            [("File: ") ++ f, strRepeat ("‾") (min f.length 80)]
            ++ (((l.filter (fun t => t.result.isSome)).filter
                  (fun t => t.path.headD ("") == f)).filter
                  (fun t => hasState t ("failed"))).flatMap (fun test =>
                [("\n✗ ") ++ joinSep (" > ") (test.path.drop 1)]
                ++ (match test.result with
                    | some res =>
                      (res.errors.getD []).flatMap (fun err =>
                        (match err.message with
                         | some m => if m = "" then [] else [("  Error: ") ++ m]
                         | none => [])
                        ++ (match err.diff with
                            | some dd => if dd = "" then [] else [("  Diff:"), diffBlock dd]
                            | none => []))
                    | none => []))
            ++ [""]) := by
  simp only [formatTestResultsOutput]
  congr 1
  rw [groupByKey_eq, List.flatMap_map]
  congr 1
  funext f
  simp only [fileSection, failureBlock]
  by_cases hf : ((l.filter (fun t => t.result.isSome)).filter
      (fun t => t.path.headD ("") == f)).filter (fun t => hasState t ("failed")) = []
  · rw [hf]
    simp
  · rw [if_neg hf, if_pos (List.length_pos.2 hf)]

end TTMcp
